import Mathlib

/-!
Verification of the lockbud callbacks (src/callbacks.rs) and of the
deadlock-detector contracts described by the specification.

The first half embeds the code of `callbacks.rs`: the crate allow/deny
skip logic, the codegen-obligation skip, mono-item collection,
`analyze_with_lockbud`, `after_analysis` and `report_stats`.  The
detector itself (`src/detector/lock.rs`) and the call-graph builder are
not part of the available sources; where a claim depends on them they
are modelled from the specification, and each such definition is marked
`Modelled from the spec:` in its doc comment.
-/

namespace Lockbud

/-- Log levels used by the callbacks: the code logs with the `debug!` and
`warn!` macros of the `log` crate. -/
inductive LogLevel where
  | debug
  | warn
deriving DecidableEq, Repr

/-- A log message emitted by the tool: a level and the rendered text. -/
structure LogMsg where
  level : LogLevel
  text : String
deriving DecidableEq, Repr

/-- Diagnosis carried by a `Report::DoubleLock` value.  Only the
`possibility` field is inspected by `callbacks.rs` (in `report_stats`);
the remaining fields model the location and call-path information that
the spec requires a report to carry. -/
structure DoubleLockDiagnosis where
  possibility : String
  firstLockLoc : Nat
  secondLockLoc : Nat
  callPathRoot : Nat
deriving DecidableEq, Repr

/-- Diagnosis carried by a `Report::ConflictLock` value: the grade, the
two call paths' roots and the source locations of the two inverted
acquisitions on each path. -/
structure ConflictLockDiagnosis where
  possibility : String
  firstRoot : Nat
  secondRoot : Nat
  firstLocs : Nat × Nat
  secondLocs : Nat × Nat
deriving DecidableEq, Repr

/-- The report enum consumed by `report_stats`: a DoubleLock or a
ConflictLock finding. -/
inductive Report where
  | doubleLock (d : DoubleLockDiagnosis)
  | conflictLock (c : ConflictLockDiagnosis)
deriving DecidableEq, Repr

/-- The `possibility` field of a report, whichever variant it is. -/
def possibilityOf : Report → String
  | .doubleLock d => d.possibility
  | .conflictLock c => c.possibility

/-- The four counters accumulated by `report_stats`. -/
structure Stats where
  doublelockProbably : Nat
  doublelockPossibly : Nat
  conflictlockProbably : Nat
  conflictlockPossibly : Nat
deriving DecidableEq, Repr

/-- One step of the counting loop of `report_stats`: a `DoubleLock`
report bumps the doublelock counter matching its possibility, a
`ConflictLock` report the conflictlock one; any other possibility value
is ignored (the `_ => {}` arms). -/
def statsStep (s : Stats) (r : Report) : Stats :=
  match r with
  | .doubleLock d =>
    if d.possibility = "Probably" then
      { s with doublelockProbably := s.doublelockProbably + 1 }
    else if d.possibility = "Possibly" then
      { s with doublelockPossibly := s.doublelockPossibly + 1 }
    else s
  | .conflictLock c =>
    if c.possibility = "Probably" then
      { s with conflictlockProbably := s.conflictlockProbably + 1 }
    else if c.possibility = "Possibly" then
      { s with conflictlockPossibly := s.conflictlockPossibly + 1 }
    else s

/-- The counters computed by the `for report in reports` loop of
`report_stats`, starting from `(0, 0, 0, 0)`. -/
def statsCounts (reports : List Report) : Stats :=
  reports.foldl statsStep ⟨0, 0, 0, 0⟩

/-- The text of the summary line `report_stats` logs. -/
def statsMessage (crateName : String) (s : Stats) : String :=
  "crate " ++ crateName ++ " contains doublelock: \x7b probably: " ++
  toString s.doublelockProbably ++ ", possibly: " ++
  toString s.doublelockPossibly ++ " \x7d, conflictlock: \x7b probably: " ++
  toString s.conflictlockProbably ++ ", possibly: " ++
  toString s.conflictlockPossibly ++ " \x7d"

/-- Model of `report_stats` (callbacks.rs): counts the reports per
(kind, possibility) and logs the summary with `warn!`. -/
def report_stats (crateName : String) (reports : List Report) : LogMsg :=
  ⟨LogLevel.warn, statsMessage crateName (statsCounts reports)⟩

/-- `CrateNameList` from `crate::options`: a white (allow) list or a
black (deny) list of crate names. -/
inductive CrateNameList where
  | white (crates : List String)
  | black (crates : List String)
deriving DecidableEq, Repr

/-- `DetectorKind` from `crate::options`: only the deadlock detector
exists. -/
inductive DetectorKind where
  | deadlock
deriving DecidableEq, Repr

/-- The options carried by `LockBudCallbacks` that
`analyze_with_lockbud` reads. -/
structure Options where
  crate_name_list : CrateNameList
  detector_kind : DetectorKind
deriving DecidableEq, Repr

/-- A mono item of a codegen unit: a function instance, a static, or a
global-asm item.  Instances are identified by a natural number. -/
inductive MonoItem where
  | fn (inst : Nat)
  | staticItem (defId : Nat)
  | globalAsm (itemId : Nat)
deriving DecidableEq, Repr

/-- The compiler-provided data `analyze_with_lockbud` reads from `tcx`
and `self`: the local crate name, the options, the two codegen-related
session flags, and the codegen units with their mono items. -/
structure AnalyzeInput where
  crateName : String
  options : Options
  noCodegen : Bool
  shouldCodegen : Bool
  cgus : List (List MonoItem)
deriving DecidableEq, Repr

/-- The crate-name skip test of `analyze_with_lockbud`: skip when a
white list is non-empty and misses the crate, or when a black list
contains it. -/
def skipByCrateName (l : CrateNameList) (crateName : String) : Bool :=
  match l with
  | .white crates => !crates.isEmpty && !crates.contains crateName
  | .black crates => crates.contains crateName

/-- The codegen skip test of `analyze_with_lockbud`:
`no_codegen || !output_types.should_codegen()`. -/
def skipByCodegen (i : AnalyzeInput) : Bool :=
  i.noCodegen || !i.shouldCodegen

/-- The instance collection of `analyze_with_lockbud`: flat-map over the
codegen units, keeping exactly the `MonoItem::Fn` payloads. -/
def collectInstances (cgus : List (List MonoItem)) : List Nat :=
  cgus.flatMap (fun cgu => cgu.filterMap (fun item =>
    match item with
    | MonoItem.fn inst => some inst
    | _ => none))

/-- Result of `analyze_with_lockbud`: the returned option, whether the
deadlock detector was invoked, and the log messages emitted. -/
structure AnalyzeResult where
  reports : Option (List Report)
  detectorInvoked : Bool
  emitted : List LogMsg
deriving DecidableEq, Repr

/-- Model of `LockBudCallbacks::analyze_with_lockbud`.  The call-graph
construction plus `DeadlockDetector::detect` on the collected instances
is abstracted as the parameter `detect`; `serde_json::to_string_pretty`
as the parameter `toJson`. -/
def analyze_with_lockbud (i : AnalyzeInput)
    (detect : List Nat → List Report) (toJson : List Report → String) :
    AnalyzeResult :=
  if skipByCrateName i.options.crate_name_list i.crateName then
    ⟨none, false, []⟩
  else if skipByCodegen i then
    ⟨none, false, []⟩
  else
    match i.options.detector_kind with
    | DetectorKind.deadlock =>
      let reports := detect (collectInstances i.cgus)
      if reports.isEmpty then ⟨none, true, []⟩
      else
        ⟨some reports, true,
          [⟨LogLevel.warn, toJson reports⟩, report_stats i.crateName reports]⟩

/-- The `rustc_driver::Compilation` verdict returned by a callback. -/
inductive Compilation where
  | Continue
  | Stop
deriving DecidableEq, Repr

/-- Modelled from the spec: `crate::cs`, whose source is not available,
receives the reports inside `after_analysis`.  Per the spec, findings
"are emitted as warnings/log output, never as a build failure", so it is
modelled as a total function emitting only warn-level messages. -/
def csAnalyze (reports : Option (List Report)) : List LogMsg :=
  match reports with
  | none => []
  | some rs => rs.map (fun r => ⟨LogLevel.warn, possibilityOf r⟩)

/-- Whether `needle` starts the list `hay` (model of `str` matching used
by `String::contains`). -/
def leadsWith : List Char → List Char → Bool
  | [], _ => true
  | _ :: _, [] => false
  | c :: cs, d :: ds => c == d && leadsWith cs ds

/-- Whether `needle` occurs as a contiguous run inside `hay`. -/
def hasSub (needle : List Char) : List Char → Bool
  | [] => leadsWith needle []
  | d :: ds => leadsWith needle (d :: ds) || hasSub needle ds

/-- Model of `str::contains` on a literal pattern, as used on the output
directory in `after_analysis`. -/
def strContains (hay needle : String) : Bool :=
  hasSub needle.toList hay.toList

/-- Result of `after_analysis`: the compilation verdict, whether the
analysis was entered at all, and the emitted log messages. -/
structure AfterAnalysisResult where
  compilation : Compilation
  analysisRun : Bool
  emitted : List LogMsg
deriving DecidableEq, Repr

/-- Model of `LockBudCallbacks::after_analysis`: build-script units
(output directory containing "/build/") return `Continue` immediately;
otherwise the analysis runs, its reports are handed to `cs::analyze`,
and the verdict is `Stop` for a test run, `Continue` otherwise. -/
def after_analysis (outputDirectory : String) (test_run : Bool)
    (i : AnalyzeInput) (detect : List Nat → List Report)
    (toJson : List Report → String) : AfterAnalysisResult :=
  if strContains outputDirectory "/build/" then
    ⟨Compilation.Continue, false, []⟩
  else
    let r := analyze_with_lockbud i detect toJson
    ⟨if test_run then Compilation.Stop else Compilation.Continue, true,
      r.emitted ++ csAnalyze r.reports⟩

/-- The allow list named by the spec: the white list when the options
hold one, empty otherwise. -/
def allowList (l : CrateNameList) : List String :=
  match l with
  | .white crates => crates
  | .black _ => []

/-- The deny list named by the spec: the black list when the options
hold one, empty otherwise. -/
def denyList (l : CrateNameList) : List String :=
  match l with
  | .white _ => []
  | .black crates => crates

/-- The skip condition exactly as the claim states it: non-empty allow
list missing the crate, or deny list containing it, or no codegen
obligation. -/
def unitSkipped (i : AnalyzeInput) : Prop :=
  (allowList i.options.crate_name_list ≠ [] ∧
    i.crateName ∉ allowList i.options.crate_name_list) ∨
  i.crateName ∈ denyList i.options.crate_name_list ∨
  (i.noCodegen = true ∨ i.shouldCodegen = false)

lemma skipByCrateName_iff (l : CrateNameList) (name : String) :
    skipByCrateName l name = true ↔
      ((allowList l ≠ [] ∧ name ∉ allowList l) ∨ name ∈ denyList l) := by
  cases l <;>
    simp [skipByCrateName, allowList, denyList, List.isEmpty_iff]

lemma skipByCodegen_iff (i : AnalyzeInput) :
    skipByCodegen i = true ↔ (i.noCodegen = true ∨ i.shouldCodegen = false) := by
  simp [skipByCodegen]

/-- C1: for every compilation unit, `analyze_with_lockbud` returns `None`
with the deadlock detector never invoked if and only if the allow list is
non-empty and misses the crate name, or the deny list contains it, or the
unit lacks a code-generation obligation. -/
theorem C1_unit_skip_iff (i : AnalyzeInput) (detect : List Nat → List Report)
    (toJson : List Report → String) :
    ((analyze_with_lockbud i detect toJson).reports = none ∧
      (analyze_with_lockbud i detect toJson).detectorInvoked = false) ↔
      unitSkipped i := by
  obtain ⟨crateName, ⟨cnl, dk⟩, noCg, shouldCg, cgus⟩ := i
  cases dk
  unfold analyze_with_lockbud
  by_cases h1 : skipByCrateName cnl crateName = true
  · rw [if_pos h1]
    have hs : unitSkipped ⟨crateName, ⟨cnl, DetectorKind.deadlock⟩, noCg, shouldCg, cgus⟩ := by
      rcases (skipByCrateName_iff cnl crateName).1 h1 with h | h
      · exact Or.inl h
      · exact Or.inr (Or.inl h)
    simp [hs]
  · rw [if_neg h1]
    by_cases h2 : skipByCodegen ⟨crateName, ⟨cnl, DetectorKind.deadlock⟩, noCg, shouldCg, cgus⟩ = true
    · rw [if_pos h2]
      have hs : unitSkipped ⟨crateName, ⟨cnl, DetectorKind.deadlock⟩, noCg, shouldCg, cgus⟩ :=
        Or.inr (Or.inr ((skipByCodegen_iff _).1 h2))
      simp [hs]
    · rw [if_neg h2]
      have hns : ¬ unitSkipped ⟨crateName, ⟨cnl, DetectorKind.deadlock⟩, noCg, shouldCg, cgus⟩ := by
        intro hu
        rcases hu with h | h | h
        · exact h1 ((skipByCrateName_iff _ _).2 (Or.inl h))
        · exact h1 ((skipByCrateName_iff _ _).2 (Or.inr h))
        · exact h2 ((skipByCodegen_iff _).2 h)
      by_cases h3 : (detect (collectInstances cgus)).isEmpty = true
      · simp [h3, hns]
      · simp [h3, hns]

/-- Whether a report is a DoubleLock report carrying the given
possibility value. -/
def isDoubleLockWith (poss : String) : Report → Bool
  | .doubleLock d => d.possibility == poss
  | .conflictLock _ => false

/-- Whether a report is a ConflictLock report carrying the given
possibility value. -/
def isConflictLockWith (poss : String) : Report → Bool
  | .doubleLock _ => false
  | .conflictLock c => c.possibility == poss

lemma foldl_statsStep (reports : List Report) (s : Stats) :
    reports.foldl statsStep s =
      ⟨s.doublelockProbably + reports.countP (isDoubleLockWith "Probably"),
       s.doublelockPossibly + reports.countP (isDoubleLockWith "Possibly"),
       s.conflictlockProbably + reports.countP (isConflictLockWith "Probably"),
       s.conflictlockPossibly + reports.countP (isConflictLockWith "Possibly")⟩ := by
  induction reports generalizing s with
  | nil =>
    obtain ⟨a, b, c, d⟩ := s
    simp
  | cons r rest ih =>
    rw [List.foldl_cons, ih]
    cases r with
    | doubleLock d =>
      by_cases h1 : d.possibility = "Probably"
      · simp only [statsStep, h1, if_pos, List.countP_cons, isDoubleLockWith,
          isConflictLockWith, Stats.mk.injEq]
        simp
        omega
      · by_cases h2 : d.possibility = "Possibly"
        · simp only [statsStep, h1, h2, List.countP_cons, isDoubleLockWith,
            isConflictLockWith, Stats.mk.injEq]
          simp [h1, h2]
          omega
        · simp only [statsStep, h1, h2, List.countP_cons, isDoubleLockWith,
            isConflictLockWith, Stats.mk.injEq]
          simp [h1, h2]
    | conflictLock c =>
      by_cases h1 : c.possibility = "Probably"
      · simp only [statsStep, h1, List.countP_cons, isDoubleLockWith,
          isConflictLockWith, Stats.mk.injEq]
        simp
        omega
      · by_cases h2 : c.possibility = "Possibly"
        · simp only [statsStep, h1, h2, List.countP_cons, isDoubleLockWith,
            isConflictLockWith, Stats.mk.injEq]
          simp [h1, h2]
          omega
        · simp only [statsStep, h1, h2, List.countP_cons, isDoubleLockWith,
            isConflictLockWith, Stats.mk.injEq]
          simp [h1, h2]

/-- C2: `report_stats` logs, at warn level, exactly the per-(kind,
possibility) counts of the report list in the
doublelock-probably/possibly, conflictlock-probably/possibly shape. -/
theorem C2_report_stats_counts (crateName : String) (reports : List Report) :
    report_stats crateName reports =
      ⟨LogLevel.warn, statsMessage crateName
        ⟨reports.countP (isDoubleLockWith "Probably"),
         reports.countP (isDoubleLockWith "Possibly"),
         reports.countP (isConflictLockWith "Probably"),
         reports.countP (isConflictLockWith "Possibly")⟩⟩ := by
  unfold report_stats statsCounts
  rw [foldl_statsStep]
  simp

/-- C9: `analyze_with_lockbud` returns `Some` exactly when the detector
ran and produced a non-empty list, and returns `None` exactly when the
unit was skipped or the detector found nothing — the two causes share
the `None` value. -/
theorem C9_none_indistinguishable (i : AnalyzeInput)
    (detect : List Nat → List Report) (toJson : List Report → String) :
    ((analyze_with_lockbud i detect toJson).reports =
        some (detect (collectInstances i.cgus)) ↔
      ((analyze_with_lockbud i detect toJson).detectorInvoked = true ∧
        detect (collectInstances i.cgus) ≠ [])) ∧
    ((analyze_with_lockbud i detect toJson).reports = none ↔
      ((analyze_with_lockbud i detect toJson).detectorInvoked = false ∨
        detect (collectInstances i.cgus) = [])) := by
  obtain ⟨crateName, ⟨cnl, dk⟩, noCg, shouldCg, cgus⟩ := i
  cases dk
  unfold analyze_with_lockbud
  by_cases h1 : skipByCrateName cnl crateName = true
  · rw [if_pos h1]
    simp
  · rw [if_neg h1]
    by_cases h2 : skipByCodegen ⟨crateName, ⟨cnl, DetectorKind.deadlock⟩, noCg, shouldCg, cgus⟩ = true
    · rw [if_pos h2]
      simp
    · rw [if_neg h2]
      by_cases h3 : (detect (collectInstances cgus)).isEmpty = true
      · have he : detect (collectInstances cgus) = [] := by
          simpa [List.isEmpty_iff] using h3
        simp [h3, he]
      · have hne : detect (collectInstances cgus) ≠ [] := by
          simpa [List.isEmpty_iff] using h3
        simp [h3, hne]

lemma fnOf_eq_some (item : MonoItem) (inst : Nat) :
    (match item with
      | MonoItem.fn k => some k
      | _ => none) = some inst ↔ item = MonoItem.fn inst := by
  cases item <;> simp

/-- C10: the instance list handed to the call-graph builder contains an
instance exactly when some codegen unit holds it as a `MonoItem::Fn`
item; statics and global-asm items never contribute. -/
theorem C10_collected_instances (cgus : List (List MonoItem)) (inst : Nat) :
    inst ∈ collectInstances cgus ↔
      ∃ items, items ∈ cgus ∧ MonoItem.fn inst ∈ items := by
  simp only [collectInstances, List.mem_flatMap, List.mem_filterMap, fnOf_eq_some]
  constructor
  · rintro ⟨items, hin, a, ha, rfl⟩
    exact ⟨items, hin, ha⟩
  · rintro ⟨items, hin, ha⟩
    exact ⟨items, hin, MonoItem.fn inst, ha, rfl⟩

lemma csAnalyze_warn (reports : Option (List Report)) :
    ((csAnalyze reports).all (fun m => m.level == LogLevel.warn)) = true := by
  cases reports <;> simp [csAnalyze]

lemma analyze_emitted_warn (i : AnalyzeInput) (detect : List Nat → List Report)
    (toJson : List Report → String) :
    (((analyze_with_lockbud i detect toJson).emitted).all
      (fun m => m.level == LogLevel.warn)) = true := by
  obtain ⟨crateName, ⟨cnl, dk⟩, noCg, shouldCg, cgus⟩ := i
  cases dk
  unfold analyze_with_lockbud
  by_cases h1 : skipByCrateName cnl crateName = true
  · rw [if_pos h1]
    rfl
  · rw [if_neg h1]
    by_cases h2 : skipByCodegen ⟨crateName, ⟨cnl, DetectorKind.deadlock⟩, noCg, shouldCg, cgus⟩ = true
    · rw [if_pos h2]
      rfl
    · rw [if_neg h2]
      by_cases h3 : (detect (collectInstances cgus)).isEmpty = true
      · simp [h3]
      · simp [h3, report_stats]

/-- C4: emitting findings never fails the build: outside a test run
`after_analysis` returns `Compilation::Continue` however many reports
were produced, and every message it emits is warn-level log output. -/
theorem C4_never_fails_build (outputDirectory : String) (test_run : Bool)
    (i : AnalyzeInput) (detect : List Nat → List Report)
    (toJson : List Report → String) (h : test_run = false) :
    (after_analysis outputDirectory test_run i detect toJson).compilation =
      Compilation.Continue ∧
    (((after_analysis outputDirectory test_run i detect toJson).emitted).all
      (fun m => m.level == LogLevel.warn)) = true := by
  subst h
  unfold after_analysis
  by_cases hb : strContains outputDirectory "/build/" = true
  · rw [if_pos hb]
    exact ⟨rfl, rfl⟩
  · rw [if_neg hb]
    refine ⟨rfl, ?_⟩
    rw [List.all_append]
    rw [analyze_emitted_warn, csAnalyze_warn]
    rfl

/-- Sample stand-in for the external detector: finds nothing. -/
def sampleDetect : List Nat → List Report := fun _ => []

/-- Sample stand-in for the JSON serializer. -/
def sampleJson : List Report → String := fun _ => ""

/-- Sample compilation unit used by the closed witnesses. -/
def sampleInput : AnalyzeInput :=
  ⟨"mycrate", ⟨CrateNameList.white [], DetectorKind.deadlock⟩, false, true,
    [[MonoItem.fn 0]]⟩

/-- Witness for C4: concrete non-test run returning `Continue` with only
warn-level output. -/
theorem C4_never_fails_build_witness :
    (after_analysis "/tmp/out" false sampleInput sampleDetect sampleJson).compilation =
      Compilation.Continue ∧
    (((after_analysis "/tmp/out" false sampleInput sampleDetect sampleJson).emitted).all
      (fun m => m.level == LogLevel.warn)) = true :=
  C4_never_fails_build "/tmp/out" false sampleInput sampleDetect sampleJson rfl

/-- C8: when the output directory contains "/build/" (a build script),
`after_analysis` returns `Continue` at once: the analysis never runs and
nothing is emitted. -/
theorem C8_build_script_not_analyzed (outputDirectory : String)
    (test_run : Bool) (i : AnalyzeInput) (detect : List Nat → List Report)
    (toJson : List Report → String)
    (h : strContains outputDirectory "/build/" = true) :
    after_analysis outputDirectory test_run i detect toJson =
      ⟨Compilation.Continue, false, []⟩ := by
  unfold after_analysis
  rw [if_pos h]

/-- Witness for C8: a concrete build-script output directory, in a test
run, still compiles on without analysis. -/
theorem C8_build_script_not_analyzed_witness :
    after_analysis "/target/debug/build/foo-123" true sampleInput
        sampleDetect sampleJson =
      ⟨Compilation.Continue, false, []⟩ :=
  C8_build_script_not_analyzed "/target/debug/build/foo-123" true sampleInput
    sampleDetect sampleJson (by decide)

/-- Modelled from the spec: the kind of a lock-guard operation
(LockGuardOperation, spec section 3) — acquisition or release of a
guard.  The detector sources (src/detector/lock.rs) are not among the
available files. -/
inductive OpKind where
  | acquire
  | release
deriving DecidableEq, Repr

/-- Modelled from the spec: the alias precision tier of a lock identity
descriptor (AliasClass, spec section 3): Exact, Likely or Unknown. -/
inductive AliasTier where
  | exact
  | likely
  | unknown
deriving DecidableEq, Repr

/-- Modelled from the spec: one lock-guard operation event: its kind,
whether the guard kind is reentrant, the lock identity descriptor
(alias-class key plus tier) and a source location. -/
structure LockGuardOp where
  kind : OpKind
  reentrant : Bool
  lockKey : Nat
  tier : AliasTier
  loc : Nat
deriving DecidableEq, Repr

/-- Modelled from the spec: a statement of an instance body that the
analysis cares about: a lock-guard operation or a call. -/
inductive Stmt where
  | op (o : LockGuardOp)
  | call (callee : Nat)
deriving DecidableEq, Repr

/-- Modelled from the spec: a LockPath — the analysis root it was
walked from and the ordered guard operations met along the inlined
walk (spec section 3). -/
structure LockPath where
  root : Nat
  ops : List LockGuardOp
deriving DecidableEq, Repr

/-- Modelled from the spec: the depth-bounded inlining walk of the Lock
State Abstract Interpreter (spec 4.2): callee bodies are inlined at
each call site, and the fuel bound guarantees termination on recursive
call graphs. -/
def flattenBody (prog : Nat → List Stmt) : Nat → List Stmt → List LockGuardOp
  | 0, _ => []
  | _ + 1, [] => []
  | fuel + 1, Stmt.op o :: rest => o :: flattenBody prog fuel rest
  | fuel + 1, Stmt.call c :: rest => flattenBody prog fuel (prog c ++ rest)

/-- Modelled from the spec: `collect_lock_paths` (spec 4.2) — one
bounded lock path per analysis root. -/
def collect_lock_paths (prog : Nat → List Stmt) (roots : List Nat)
    (fuel : Nat) : List LockPath :=
  roots.map (fun r => ⟨r, flattenBody prog fuel (prog r)⟩)

/-- Modelled from the spec: double-lock grading (spec 4.3): Probably
when the class tier is Exact and the guard is non-reentrant, Possibly
otherwise. -/
def gradeDouble (held incoming : LockGuardOp) : String :=
  if held.tier = AliasTier.exact ∧ incoming.tier = AliasTier.exact ∧
      incoming.reentrant = false
  then "Probably" else "Possibly"

/-- Modelled from the spec: the double-lock scan (spec 4.3): walk the
operations keeping the held-guard stack; each Acquire whose class is
already held emits a DoubleLock; a Release pops the top of the stack
and is ignored on an empty stack. -/
def doubleLocksAux (root : Nat) :
    List LockGuardOp → List LockGuardOp → List Report
  | _, [] => []
  | held, o :: rest =>
    match o.kind with
    | OpKind.acquire =>
      ((held.filter (fun h => h.lockKey == o.lockKey)).map
        (fun h => Report.doubleLock ⟨gradeDouble h o, h.loc, o.loc, root⟩)) ++
      doubleLocksAux root (o :: held) rest
    | OpKind.release => doubleLocksAux root held.tail rest

/-- Modelled from the spec: the DoubleLock reports of one LockPath. -/
def doubleLocksOf (p : LockPath) : List Report :=
  doubleLocksAux p.root [] p.ops

/-- Modelled from the spec: the Acquire events of a LockPath in
program order. -/
def acquiresOf (p : LockPath) : List LockGuardOp :=
  p.ops.filter (fun o => o.kind == OpKind.acquire)

/-- All ordered pairs (earlier, later) of a list. -/
def orderedPairs {α : Type} : List α → List (α × α)
  | [] => []
  | x :: xs => xs.map (fun y => (x, y)) ++ orderedPairs xs

/-- Modelled from the spec: a conflict candidate: path P acquires `pa`
then `pb`, path Q acquires `qa` then `qb`, with the class of `qa` equal
to that of `pb` and the class of `qb` equal to that of `pa`. -/
structure ConflictCand where
  pa : LockGuardOp
  pb : LockGuardOp
  qa : LockGuardOp
  qb : LockGuardOp
deriving DecidableEq, Repr

/-- Whether two conflict candidates concern the same unordered
alias-class pair. -/
def samePairKeys (c d : ConflictCand) : Bool :=
  (c.pa.lockKey == d.pa.lockKey && c.pb.lockKey == d.pb.lockKey) ||
  (c.pa.lockKey == d.pb.lockKey && c.pb.lockKey == d.pa.lockKey)

/-- Modelled from the spec: deduplication of conflict candidates by
unordered class pair, so each inversion is reported once per path pair
(spec 4.3). -/
def dedupCands (l : List ConflictCand) : List ConflictCand :=
  l.foldl
    (fun acc c => if acc.any (fun d => samePairKeys d c) then acc else acc ++ [c])
    []

/-- Modelled from the spec: conflict-lock grading (spec 4.3): Probably
when both orderings involve Exact-tier classes, Possibly otherwise. -/
def gradeConflict (c : ConflictCand) : String :=
  if c.pa.tier = AliasTier.exact ∧ c.pb.tier = AliasTier.exact ∧
      c.qa.tier = AliasTier.exact ∧ c.qb.tier = AliasTier.exact
  then "Probably" else "Possibly"

/-- Modelled from the spec: the ConflictLock reports of one pair of
LockPaths: inverted acquisition orders of two distinct classes,
deduplicated by unordered class pair, each report referencing both
paths' roots and locations. -/
def conflictsOfPair (p q : LockPath) : List Report :=
  let cands := (orderedPairs (acquiresOf p)).flatMap (fun ab =>
    (orderedPairs (acquiresOf q)).filterMap (fun cd =>
      if ab.1.lockKey == cd.2.lockKey && ab.2.lockKey == cd.1.lockKey &&
          ab.1.lockKey != ab.2.lockKey
      then some ⟨ab.1, ab.2, cd.1, cd.2⟩ else none))
  (dedupCands cands).map (fun c =>
    Report.conflictLock
      ⟨gradeConflict c, p.root, q.root, (c.pa.loc, c.pb.loc), (c.qa.loc, c.qb.loc)⟩)

/-- Numeric code of an alias tier, for the stable sort key. -/
def tierNum : AliasTier → Nat
  | .exact => 0
  | .likely => 1
  | .unknown => 2

/-- Numeric code of an operation kind, for the stable sort key. -/
def kindNum : OpKind → Nat
  | .acquire => 0
  | .release => 1

/-- Numeric code of a Bool, for the stable sort key. -/
def boolNum : Bool → Nat
  | false => 0
  | true => 1

/-- Injective encoding of a guard operation into a natural number. -/
def encodeOp (o : LockGuardOp) : Nat :=
  Nat.pair (kindNum o.kind)
    (Nat.pair (boolNum o.reentrant)
      (Nat.pair o.lockKey (Nat.pair (tierNum o.tier) o.loc)))

/-- Injective encoding of a list of guard operations. -/
def encodeOps : List LockGuardOp → Nat
  | [] => 0
  | o :: rest => Nat.pair (encodeOp o) (encodeOps rest) + 1

/-- The stable sort key of a LockPath. -/
def encodePath (p : LockPath) : Nat :=
  Nat.pair p.root (encodeOps p.ops)

/-- Order on LockPaths by their stable keys. -/
def pathLE (p q : LockPath) : Prop :=
  encodePath p ≤ encodePath q

instance : DecidableRel pathLE := fun p q =>
  Nat.decLe (encodePath p) (encodePath q)

/-- Modelled from the spec: the detector sorts by a stable key before
grading and emitting, so results do not depend on enumeration order
(spec 4.3). -/
def sortPaths (paths : List LockPath) : List LockPath :=
  List.insertionSort pathLE paths

/-- The report list computed from the sorted paths: all DoubleLock
reports, then the ConflictLock reports of every pair of paths with
distinct roots. -/
def detectCore (ps : List LockPath) : List Report :=
  (ps.flatMap doubleLocksOf) ++
  (((orderedPairs ps).filter (fun pq => pq.1.root != pq.2.root)).flatMap
    (fun pq => conflictsOfPair pq.1 pq.2))

/-- Modelled from the spec: `DeadlockDetector::detect` (spec 4.3),
applied to the collected LockPaths. -/
def detect (paths : List LockPath) : List Report :=
  detectCore (sortPaths paths)

lemma gradeDouble_cases (h o : LockGuardOp) :
    gradeDouble h o = "Probably" ∨ gradeDouble h o = "Possibly" := by
  unfold gradeDouble
  split <;> simp

lemma gradeConflict_cases (c : ConflictCand) :
    gradeConflict c = "Probably" ∨ gradeConflict c = "Possibly" := by
  unfold gradeConflict
  split <;> simp

lemma possibility_doubleLocksAux (root : Nat) (held ops : List LockGuardOp)
    (r : Report) (h : r ∈ doubleLocksAux root held ops) :
    possibilityOf r = "Probably" ∨ possibilityOf r = "Possibly" := by
  induction ops generalizing held with
  | nil => simp [doubleLocksAux] at h
  | cons o rest ih =>
    obtain ⟨k, re, key, tier, loc⟩ := o
    cases k with
    | acquire =>
      simp only [doubleLocksAux, List.mem_append, List.mem_map,
        List.mem_filter] at h
      rcases h with ⟨a, _, rfl⟩ | h
      · exact gradeDouble_cases a ⟨OpKind.acquire, re, key, tier, loc⟩
      · exact ih _ h
    | release =>
      simp only [doubleLocksAux] at h
      exact ih _ h

lemma possibility_conflictsOfPair (p q : LockPath) (r : Report)
    (h : r ∈ conflictsOfPair p q) :
    possibilityOf r = "Probably" ∨ possibilityOf r = "Possibly" := by
  unfold conflictsOfPair at h
  simp only [List.mem_map] at h
  obtain ⟨c, _, rfl⟩ := h
  exact gradeConflict_cases c

/-- C3: every report the detector produces, DoubleLock or ConflictLock,
carries a possibility value of "Probably" or "Possibly". -/
theorem C3_possibility_two_values (paths : List LockPath) (r : Report)
    (h : r ∈ detect paths) :
    possibilityOf r = "Probably" ∨ possibilityOf r = "Possibly" := by
  unfold detect detectCore at h
  rcases List.mem_append.1 h with h | h
  · obtain ⟨p, _, hp⟩ := List.mem_flatMap.1 h
    exact possibility_doubleLocksAux p.root [] p.ops r hp
  · obtain ⟨pq, _, hpq⟩ := List.mem_flatMap.1 h
    exact possibility_conflictsOfPair pq.1 pq.2 r hpq

/-- Concrete path list for the C3 witness: one path re-acquiring a
Likely-tier lock. -/
def pathsC3 : List LockPath :=
  [⟨5, [⟨OpKind.acquire, false, 7, AliasTier.likely, 1⟩,
        ⟨OpKind.acquire, false, 7, AliasTier.likely, 2⟩]⟩]

/-- Witness for C3: the concrete report produced on `pathsC3` carries
one of the two possibility values. -/
theorem C3_possibility_two_values_witness :
    possibilityOf (Report.doubleLock ⟨"Possibly", 1, 2, 5⟩) = "Probably" ∨
    possibilityOf (Report.doubleLock ⟨"Possibly", 1, 2, 5⟩) = "Possibly" :=
  C3_possibility_two_values pathsC3 (Report.doubleLock ⟨"Possibly", 1, 2, 5⟩)
    (by decide)

lemma kindNum_inj {a b : OpKind} (h : kindNum a = kindNum b) : a = b := by
  cases a <;> cases b <;> simp_all [kindNum]

lemma tierNum_inj {a b : AliasTier} (h : tierNum a = tierNum b) : a = b := by
  cases a <;> cases b <;> simp_all [tierNum]

lemma boolNum_inj {a b : Bool} (h : boolNum a = boolNum b) : a = b := by
  cases a <;> cases b <;> simp_all [boolNum]

lemma encodeOp_inj {a b : LockGuardOp} (h : encodeOp a = encodeOp b) : a = b := by
  obtain ⟨k1, r1, key1, t1, l1⟩ := a
  obtain ⟨k2, r2, key2, t2, l2⟩ := b
  simp only [encodeOp, Nat.pair_eq_pair] at h
  obtain ⟨h1, h2, h3, h4, h5⟩ := h
  cases kindNum_inj h1
  cases boolNum_inj h2
  cases tierNum_inj h4
  subst h3
  subst h5
  rfl

lemma encodeOps_inj : ∀ {l1 l2 : List LockGuardOp},
    encodeOps l1 = encodeOps l2 → l1 = l2 := by
  intro l1
  induction l1 with
  | nil =>
    intro l2 h
    cases l2 with
    | nil => rfl
    | cons o2 rest2 =>
      exact absurd h (by simp only [encodeOps]; omega)
  | cons o rest ih =>
    intro l2 h
    cases l2 with
    | nil =>
      exact absurd h (by simp only [encodeOps]; omega)
    | cons o2 rest2 =>
      simp only [encodeOps, Nat.add_right_cancel_iff, Nat.pair_eq_pair] at h
      obtain ⟨ha, hb⟩ := h
      rw [encodeOp_inj ha, ih hb]

lemma encodePath_inj {p q : LockPath} (h : encodePath p = encodePath q) :
    p = q := by
  obtain ⟨r1, ops1⟩ := p
  obtain ⟨r2, ops2⟩ := q
  simp only [encodePath, Nat.pair_eq_pair] at h
  obtain ⟨h1, h2⟩ := h
  subst h1
  rw [encodeOps_inj h2]

lemma sortPaths_eq_of_perm {l1 l2 : List LockPath} (h : l1.Perm l2) :
    sortPaths l1 = sortPaths l2 := by
  haveI : IsTotal LockPath pathLE := ⟨fun a b => Nat.le_total _ _⟩
  haveI : IsTrans LockPath pathLE := ⟨fun a b c hab hbc => Nat.le_trans hab hbc⟩
  haveI : IsAntisymm LockPath pathLE :=
    ⟨fun a b hab hba => encodePath_inj (Nat.le_antisymm hab hba)⟩
  exact List.eq_of_perm_of_sorted
    (((List.perm_insertionSort pathLE l1).trans h).trans
      (List.perm_insertionSort pathLE l2).symm)
    (List.sorted_insertionSort pathLE l1)
    (List.sorted_insertionSort pathLE l2)

/-- C5: the detector is deterministic: two runs over the same set of
lock paths, however that set is enumerated, produce the same report
list in the same order with the same grading. -/
theorem C5_determinism (l1 l2 : List LockPath) (h : l1.Perm l2) :
    detect l1 = detect l2 := by
  unfold detect
  rw [sortPaths_eq_of_perm h]

/-- First concrete path for the C5 witness. -/
def pathC5a : LockPath := ⟨0, [⟨OpKind.acquire, false, 0, AliasTier.exact, 1⟩]⟩

/-- Second concrete path for the C5 witness. -/
def pathC5b : LockPath := ⟨1, [⟨OpKind.acquire, false, 1, AliasTier.exact, 2⟩]⟩

/-- Witness for C5: swapping the enumeration order of two concrete
paths leaves the detector output unchanged. -/
theorem C5_determinism_witness :
    detect [pathC5a, pathC5b] = detect [pathC5b, pathC5a] :=
  C5_determinism [pathC5a, pathC5b] [pathC5b, pathC5a]
    (List.Perm.swap pathC5b pathC5a [])

/-- Acquire of the single static non-reentrant Exact-tier lock L of the
C6 scenario, at the given source location. -/
def lockL (loc : Nat) : LockGuardOp :=
  ⟨OpKind.acquire, false, 0, AliasTier.exact, loc⟩

/-- A release event popping the top of the held-guard stack. -/
def unlockOp : LockGuardOp :=
  ⟨OpKind.release, false, 0, AliasTier.exact, 99⟩

/-- The C6 program: `f` (instance 0) acquires L then calls `g`
(instance 1), which acquires the same static L again before any
release. -/
def progC6 : Nat → List Stmt
  | 0 => [Stmt.op (lockL 1), Stmt.call 1, Stmt.op unlockOp]
  | 1 => [Stmt.op (lockL 2), Stmt.op unlockOp]
  | _ => []

/-- C6: on the double-lock scenario — `f` takes the non-reentrant
Exact-tier lock L and calls `g`, which takes the same L again before
any release — the detector emits exactly one DoubleLock report, graded
Probably. -/
theorem C6_double_lock_detected :
    detect (collect_lock_paths progC6 [0] 10) =
      [Report.doubleLock ⟨"Probably", 1, 2, 0⟩] := by
  decide

/-- Acquire of the Exact-tier non-reentrant lock with the given class
key, at the given source location, for the C7 scenario. -/
def acqOp (key loc : Nat) : LockGuardOp :=
  ⟨OpKind.acquire, false, key, AliasTier.exact, loc⟩

/-- The C7 program: root `f` (instance 0) acquires A (class 0) then B
(class 1); root `g` (instance 1) acquires B then A. -/
def progC7 : Nat → List Stmt
  | 0 => [Stmt.op (acqOp 0 1), Stmt.op (acqOp 1 2), Stmt.op unlockOp, Stmt.op unlockOp]
  | 1 => [Stmt.op (acqOp 1 3), Stmt.op (acqOp 0 4), Stmt.op unlockOp, Stmt.op unlockOp]
  | _ => []

/-- C7: on the conflict-lock scenario — two roots acquiring the
Exact-tier locks A and B in opposite orders — the detector emits
exactly one ConflictLock report, graded Probably, referencing both call
paths' roots and both pairs of acquisition locations. -/
theorem C7_conflict_lock_detected :
    detect (collect_lock_paths progC7 [0, 1] 10) =
      [Report.conflictLock ⟨"Probably", 0, 1, (1, 2), (3, 4)⟩] := by
  decide

end Lockbud
